import Mathlib

/-!
Verification development for the lock-time value types (`psbt/src/locktime.rs`)
and the descriptor templates (`std/src/descriptors.rs`) of the `bp-std`
repository, shallowly embedded in Lean 4.

Machine integers (`u32`, `u8`) are modelled as `Nat`; none of the embedded
operations wrap or overflow, and theorems quantifying over "every u32" carry an
explicit `< 2^32` bound.  Strings are modelled as `List Char` (Rust byte
slicing such as `s[5..]` coincides with char-dropping here because the parser
branch guards guarantee a 5- resp. 7-byte ASCII prefix).
-/

/-! ## Lock-time model -/

/-- Threshold separating height-based from time-based `nLockTime` values,
`0x1DCD6500` (from the source's doc comments and the `bp` crate). -/
def LOCKTIME_THRESHOLD : Nat := 500000000

/-- Modelled from the spec: `bp::LockTime` is an external crate type not under
`src/`.  It wraps a raw consensus `u32`; per the spec (§6, glossary) the value
is "interpreted as either a block height or a UNIX timestamp depending on which
disjoint numeric range it falls in": heights are `< 500_000_000`, timestamps
are `≥ 500_000_000`. -/
structure LockTime where
  consensus : Nat
deriving DecidableEq, Repr

/-- Modelled from the spec: `bp::LockTime::from_consensus`. -/
def LockTime.from_consensus (value : Nat) : LockTime := ⟨value⟩

/-- Modelled from the spec: `bp::LockTime::into_consensus`. -/
def LockTime.into_consensus (lt : LockTime) : Nat := lt.consensus

/-- Modelled from the spec: `bp::LockTime::is_height_based` — the value lies in
the height range, i.e. below the threshold. -/
def LockTime.is_height_based (lt : LockTime) : Bool :=
  decide (lt.consensus < LOCKTIME_THRESHOLD)

/-- Modelled from the spec: `bp::LockTime::is_time_based` — the complement of
`is_height_based`. -/
def LockTime.is_time_based (lt : LockTime) : Bool :=
  !lt.is_height_based

/-- `InvalidTimelock` error (locktime.rs line 28). -/
inductive InvalidTimelock where
  | mk
deriving DecidableEq, Repr

/-- `LockTimestamp` (locktime.rs line 39): a `nTimeLock` value guaranteed to be
either 0 or `≥ 500000000`. -/
structure LockTimestamp where
  value : Nat
deriving DecidableEq, Repr

/-- `TryFrom<LockTime> for LockTimestamp` (locktime.rs lines 53-62). -/
def LockTimestamp.try_from_lock_time (lock_time : LockTime) :
    Except InvalidTimelock LockTimestamp :=
  if !lock_time.is_time_based then Except.error InvalidTimelock.mk
  else Except.ok ⟨lock_time.into_consensus⟩

/-- `TryFrom<u32> for LockTimestamp` (locktime.rs lines 45-51). -/
def LockTimestamp.try_from (value : Nat) : Except InvalidTimelock LockTimestamp :=
  LockTimestamp.try_from_lock_time (LockTime.from_consensus value)

/-- `LockTimestamp::anytime` (locktime.rs line 67). -/
def LockTimestamp.anytime : LockTimestamp := ⟨0⟩

/-- `LockTimestamp::from_unix_timestamp` (locktime.rs lines 81-87). -/
def LockTimestamp.from_unix_timestamp (timestamp : Nat) : Option LockTimestamp :=
  if timestamp < LOCKTIME_THRESHOLD then none
  else some ⟨timestamp⟩

/-- `LockTimestamp::into_consensus` (locktime.rs line 92). -/
def LockTimestamp.into_consensus (lt : LockTimestamp) : Nat := lt.value

/-- `LockHeight` (locktime.rs line 131): a `nTimeLock` value guaranteed to be
`< 500000000`. -/
structure LockHeight where
  value : Nat
deriving DecidableEq, Repr

/-- `TryFrom<LockTime> for LockHeight` (locktime.rs lines 145-154). -/
def LockHeight.try_from_lock_time (lock_time : LockTime) :
    Except InvalidTimelock LockHeight :=
  if !lock_time.is_height_based then Except.error InvalidTimelock.mk
  else Except.ok ⟨lock_time.into_consensus⟩

/-- `TryFrom<u32> for LockHeight` (locktime.rs lines 137-143). -/
def LockHeight.try_from (value : Nat) : Except InvalidTimelock LockHeight :=
  LockHeight.try_from_lock_time (LockTime.from_consensus value)

/-- `LockHeight::anytime` (locktime.rs line 159). -/
def LockHeight.anytime : LockHeight := ⟨0⟩

/-- `LockHeight::from_height` (locktime.rs lines 166-172). -/
def LockHeight.from_height (height : Nat) : Option LockHeight :=
  if height < LOCKTIME_THRESHOLD then some ⟨height⟩
  else none

/-- `LockHeight::into_consensus` (locktime.rs line 177). -/
def LockHeight.into_consensus (lh : LockHeight) : Nat := lh.value

/-! ## Decimal formatting and `u32` parsing

Rust's `Display for u32` prints the plain decimal digits, and
`str::parse::<u32>` accepts an optional leading `+` followed by one or more
ASCII digits, failing on overflow past `u32::MAX`.  `toDec` is a fuel-based
(hence kernel-reducible) decimal printer; `toDecSpec` is the same function in
structurally-recursive-on-the-value form used for proofs. -/

/-- The ASCII digit character for `d < 10`. -/
def digitChar (d : Nat) : Char := Char.ofNat (48 + d)

/-- Decimal digits of `n`, most significant first: recursion on the value
(well-founded), used in proofs. -/
def toDecSpec (n : Nat) : List Char :=
  if h10 : n < 10 then [digitChar (n % 10)]
  else toDecSpec (n / 10) ++ [digitChar (n % 10)]
termination_by n
decreasing_by omega

/-- Fuel-based accumulator version of `toDecSpec`; structurally recursive, so
concrete values evaluate by `rfl`/`decide`. -/
def toDecAux : Nat → Nat → List Char → List Char
  | 0, _, acc => acc
  | fuel + 1, n, acc =>
    if n < 10 then digitChar (n % 10) :: acc
    else toDecAux fuel (n / 10) (digitChar (n % 10) :: acc)

/-- Decimal representation of `n` (models Rust `Display for u32`). -/
def toDec (n : Nat) : List Char := toDecAux (n + 1) n []

/-- The numeric value of an ASCII digit character, `none` otherwise
(models Rust `char::to_digit(10)`). -/
def digitVal (c : Char) : Option Nat :=
  if 48 ≤ c.toNat ∧ c.toNat ≤ 57 then some (c.toNat - 48) else none

/-- Digit-folding loop of Rust `u32::from_str`: left-to-right accumulation
with a `u32` overflow check at each step. -/
def parseU32Digits : List Char → Nat → Option Nat
  | [], acc => some acc
  | c :: cs, acc =>
    match digitVal c with
    | none => none
    | some d =>
      if acc * 10 + d ≤ 4294967295 then parseU32Digits cs (acc * 10 + d)
      else none

/-- Rust `str::parse::<u32>`: optional leading `+`, then a nonempty digit
string; fails on empty input, a stray sign, any non-digit, or overflow. -/
def parseU32 (s : List Char) : Option Nat :=
  match s with
  | [] => none
  | c :: cs =>
    if c = '+' then (if cs = [] then none else parseU32Digits cs 0)
    else parseU32Digits (c :: cs) 0

/-! ## Textual lock-time form (`Display` / `FromStr`) -/

/-- Modelled from the spec: `ParseError` is repo code outside `src/` (§7):
unrecognized descriptor shape, a recognized shape whose integer fails the
flavor's range check, or an embedded text that is not a valid integer. -/
inductive ParseError where
  | invalidDescriptor (s : List Char)
  | invalidTimestamp (n : Nat)
  | invalidHeight (n : Nat)
  | invalidInteger
deriving DecidableEq, Repr

/-- Rust `str::trim_end_matches(')')`: removes all trailing `')'` characters. -/
def trimEndMatchesRParen (s : List Char) : List Char :=
  (s.reverse.dropWhile (fun c => c == ')')).reverse

/-- Rust `str::ends_with(')')`: the last character is `')'`. -/
def endsWithRParen (s : List Char) : Bool :=
  s.reverse.head? == some ')'

/-- `Display for LockTimestamp` (locktime.rs lines 99-105): `time(N)`. -/
def lockTimestampDisplay (lt : LockTimestamp) : List Char :=
  "time(".toList ++ toDec lt.value ++ [')']

/-- `FromStr for LockTimestamp` (locktime.rs lines 107-121), body after the
`to_lowercase` of the input. -/
def lockTimestampFromStrLower (s : List Char) : Except ParseError LockTimestamp :=
  if s = "0".toList ∨ s = "none".toList then Except.ok LockTimestamp.anytime
  else if "time(".toList.isPrefixOf s && endsWithRParen s then
    match parseU32 (trimEndMatchesRParen (s.drop 5)) with
    | some no =>
      match LockTimestamp.try_from no with
      | Except.ok lock => Except.ok lock
      | Except.error _ => Except.error (ParseError.invalidTimestamp no)
    | none => Except.error ParseError.invalidInteger
  else Except.error (ParseError.invalidDescriptor s)

/-- `FromStr for LockTimestamp` (locktime.rs lines 107-121): lowercases, then
recognizes `"0"`/`"none"`/`"time(N)"`. -/
def lockTimestampFromStr (input : List Char) : Except ParseError LockTimestamp :=
  lockTimestampFromStrLower (input.map Char.toLower)

/-- `Display for LockHeight` (locktime.rs lines 184-190): `height(N)`. -/
def lockHeightDisplay (lh : LockHeight) : List Char :=
  "height(".toList ++ toDec lh.value ++ [')']

/-- `FromStr for LockHeight` (locktime.rs lines 192-206), body after the
`to_lowercase` of the input. -/
def lockHeightFromStrLower (s : List Char) : Except ParseError LockHeight :=
  if s = "0".toList ∨ s = "none".toList then Except.ok LockHeight.anytime
  else if "height(".toList.isPrefixOf s && endsWithRParen s then
    match parseU32 (trimEndMatchesRParen (s.drop 7)) with
    | some no =>
      match LockHeight.try_from no with
      | Except.ok lock => Except.ok lock
      | Except.error _ => Except.error (ParseError.invalidHeight no)
    | none => Except.error ParseError.invalidInteger
  else Except.error (ParseError.invalidDescriptor s)

/-- `FromStr for LockHeight` (locktime.rs lines 192-206): lowercases, then
recognizes `"0"`/`"none"`/`"height(N)"`. -/
def lockHeightFromStr (input : List Char) : Except ParseError LockHeight :=
  lockHeightFromStrLower (input.map Char.toLower)

/-! ## Descriptor model (`std/src/descriptors.rs`)

The descriptor templates in `src/` are generic over key types satisfying the
repository's key-capability traits; those traits and the path/origin value
types live outside `src/` and are modelled from the spec (§3, §4.1). -/

/-- Modelled from the spec: `NormalIndex` — "an unsigned child index restricted
to the non-hardened range" (§3). -/
structure NormalIndex where
  child : Nat
  non_hardened : child < 2147483648

/-- Modelled from the spec: `Terminal` — `{ keychain: u8, index: NormalIndex }`
(§3); the `u8` keychain is modelled as `Nat`. -/
structure Terminal where
  keychain : Nat
  index : NormalIndex

/-- Modelled from the spec: a compressed secp256k1 public key, kept opaque
(wrapped tag). -/
structure CompressedPk where
  pk : Nat
deriving DecidableEq

/-- Modelled from the spec: an x-only public key (§3, glossary), kept opaque. -/
structure XOnlyPk where
  pk : Nat
deriving DecidableEq

/-- Modelled from the spec: a Taproot output key; `xonly_keyset` converts the
derived x-only key into it via `Into` (payload-preserving). -/
structure TaprootPk where
  pk : Nat
deriving DecidableEq

/-- Modelled from the spec: the payload-preserving `Into<TaprootPk>` conversion
of an x-only key. -/
def XOnlyPk.intoTaprootPk (k : XOnlyPk) : TaprootPk := ⟨k.pk⟩

/-- Modelled from the spec: the origin of an extended key — master fingerprint
plus derivation path — kept opaque. -/
structure XpubOrigin where
  tag : Nat
deriving DecidableEq

/-- Modelled from the spec: `XpubSpec` — "an extended public key bundled with
its origin" (§3); the extended key itself is kept opaque. -/
structure XpubSpec where
  origin : XpubOrigin
  xpub : Nat
deriving DecidableEq

/-- Modelled from the spec: `KeyOrigin` — `{ origin, terminal }` (§3);
`KeyOrigin.make` models `KeyOrigin::with(origin, terminal)`. -/
structure KeyOrigin where
  origin : XpubOrigin
  terminal : Terminal

/-- Models `KeyOrigin::with(origin, terminal)`. -/
def KeyOrigin.make (origin : XpubOrigin) (terminal : Terminal) : KeyOrigin :=
  ⟨origin, terminal⟩

/-- Modelled from the spec: the role tag of a `TapDerivation` — "here:
'internal key'; script-path leaf roles are a future extension point" (§3). -/
inductive TapRole where
  | internalKey

/-- Modelled from the spec: `TapDerivation` — the Taproot analogue of
`KeyOrigin`, "additionally tagging the key's role" (§3). -/
structure TapDerivation where
  origin : XpubOrigin
  terminal : Terminal
  role : TapRole

/-- Models `TapDerivation::with_internal_pk(origin, terminal)`. -/
def TapDerivation.withInternalPk (origin : XpubOrigin) (terminal : Terminal) :
    TapDerivation :=
  ⟨origin, terminal, TapRole.internalKey⟩

/-- Modelled from the spec: `WPubkeyHash::with(key)` — the hash160 of the
compressed key's serialization; the external hash is modelled as an opaque
tagging of the key. -/
structure WPubkeyHash where
  ofKey : CompressedPk
deriving DecidableEq

/-- Modelled from the spec: a script public key; only the P2WPKH form is
produced by the templates under verification. -/
inductive ScriptPubkey where
  | p2wpkh (hash : WPubkeyHash)

/-- `DerivedScript` (spec §3): closed variant set `Bare(script)` /
`TaprootKeyOnly(x-only pubkey)`. -/
inductive DerivedScript where
  | bare (script : ScriptPubkey)
  | taprootKeyOnly (internal_key : XOnlyPk)

/-- Modelled from the spec: `Range<u8>` returned by `keychains()`; Rust's
`Range { start, end }` with `u8` endpoints modelled as `Nat` (`end` is a Lean
keyword, hence `stop`). -/
structure Range8 where
  start : Nat
  stop : Nat

/-- Modelled from the spec: the "derives a compressed public key at
(keychain, index)" capability (§4.1) with its keychain range and `XpubSpec`
access. -/
class DeriveCompr (K : Type) where
  keychains : K → Range8
  derive : K → Nat → NormalIndex → CompressedPk
  xpub_spec : K → XpubSpec

/-- Modelled from the spec: the "derives an x-only public key at
(keychain, index)" capability (§4.1). -/
class DeriveXOnly (K : Type) where
  keychains : K → Range8
  derive : K → Nat → NormalIndex → XOnlyPk
  xpub_spec : K → XpubSpec

/-- Order-preserving map, modelling `indexmap::IndexMap` as an association
list; `insert` replaces in place when the key is present and appends
otherwise. -/
abbrev IndexMap (α β : Type) : Type := List (α × β)

/-- The empty `IndexMap` (also models `IndexMap::with_capacity(n)`). -/
def IndexMap.empty {α β : Type} : IndexMap α β := []

/-- `IndexMap::insert`: replace the value at an existing key keeping its
position, else append the new entry. -/
def IndexMap.insert {α β : Type} [DecidableEq α] (m : IndexMap α β) (k : α)
    (v : β) : IndexMap α β :=
  if (m.map Prod.fst).contains k then
    m.map (fun p => if p.1 = k then (k, v) else p)
  else m ++ [(k, v)]

/-- `Wpkh<K>` (descriptors.rs line 71): single-field wrapper over a
compressed-key-capable key. -/
structure Wpkh (K : Type) where
  key : K

/-- `Derive<DerivedScript> for Wpkh` — `keychains` (descriptors.rs line 80). -/
def Wpkh.keychains {K : Type} [DeriveCompr K] (w : Wpkh K) : Range8 :=
  DeriveCompr.keychains w.key

/-- `Derive<DerivedScript> for Wpkh` — `derive` (descriptors.rs lines 82-85). -/
def Wpkh.derive {K : Type} [DeriveCompr K] (w : Wpkh K) (keychain : Nat)
    (index : NormalIndex) : DerivedScript :=
  DerivedScript.bare (ScriptPubkey.p2wpkh ⟨DeriveCompr.derive w.key keychain index⟩)

/-- `Descriptor for Wpkh` — `keys` (descriptors.rs line 93). -/
def Wpkh.keys {K : Type} (w : Wpkh K) : List K := [w.key]

/-- `Descriptor for Wpkh` — `vars` (descriptors.rs line 94). -/
def Wpkh.vars {K : Type} (_w : Wpkh K) : List Unit := []

/-- `Descriptor for Wpkh` — `xpubs` (descriptors.rs line 95). -/
def Wpkh.xpubs {K : Type} [DeriveCompr K] (w : Wpkh K) : List XpubSpec :=
  [DeriveCompr.xpub_spec w.key]

/-- `Descriptor for Wpkh` — `compr_keyset` (descriptors.rs lines 97-102). -/
def Wpkh.compr_keyset {K : Type} [DeriveCompr K] (w : Wpkh K) (terminal : Terminal) :
    IndexMap CompressedPk KeyOrigin :=
  IndexMap.insert IndexMap.empty
    (DeriveCompr.derive w.key terminal.keychain terminal.index)
    (KeyOrigin.make (DeriveCompr.xpub_spec w.key).origin terminal)

/-- `Descriptor for Wpkh` — `xonly_keyset` (descriptors.rs lines 104-106). -/
def Wpkh.xonly_keyset {K : Type} (_w : Wpkh K) (_terminal : Terminal) :
    IndexMap TaprootPk TapDerivation :=
  IndexMap.empty

/-- `TrKey<K>` (descriptors.rs line 111): single-field wrapper over an
x-only-capable key. -/
structure TrKey (K : Type) where
  internal_key : K

/-- `Derive<DerivedScript> for TrKey` — `keychains` (descriptors.rs line 120). -/
def TrKey.keychains {K : Type} [DeriveXOnly K] (t : TrKey K) : Range8 :=
  DeriveXOnly.keychains t.internal_key

/-- `Derive<DerivedScript> for TrKey` — `derive` (descriptors.rs lines 122-125). -/
def TrKey.derive {K : Type} [DeriveXOnly K] (t : TrKey K) (keychain : Nat)
    (index : NormalIndex) : DerivedScript :=
  DerivedScript.taprootKeyOnly (DeriveXOnly.derive t.internal_key keychain index)

/-- `Descriptor for TrKey` — `keys` (descriptors.rs line 133). -/
def TrKey.keys {K : Type} (t : TrKey K) : List K := [t.internal_key]

/-- `Descriptor for TrKey` — `vars` (descriptors.rs line 134). -/
def TrKey.vars {K : Type} (_t : TrKey K) : List Unit := []

/-- `Descriptor for TrKey` — `xpubs` (descriptors.rs line 135). -/
def TrKey.xpubs {K : Type} [DeriveXOnly K] (t : TrKey K) : List XpubSpec :=
  [DeriveXOnly.xpub_spec t.internal_key]

/-- `Descriptor for TrKey` — `compr_keyset` (descriptors.rs lines 137-139). -/
def TrKey.compr_keyset {K : Type} (_t : TrKey K) (_terminal : Terminal) :
    IndexMap CompressedPk KeyOrigin :=
  IndexMap.empty

/-- `Descriptor for TrKey` — `xonly_keyset` (descriptors.rs lines 141-149). -/
def TrKey.xonly_keyset {K : Type} [DeriveXOnly K] (t : TrKey K) (terminal : Terminal) :
    IndexMap TaprootPk TapDerivation :=
  IndexMap.insert IndexMap.empty
    (XOnlyPk.intoTaprootPk (DeriveXOnly.derive t.internal_key terminal.keychain terminal.index))
    (TapDerivation.withInternalPk (DeriveXOnly.xpub_spec t.internal_key).origin terminal)

/-- `DescriptorStd` (descriptors.rs lines 172-178): closed union of the two
templates.  The `Descriptor` impl for it (line 196) constrains
`S::Compr = S::XOnly = K`, so the union is modelled over a single key type
carrying both capabilities. -/
inductive DescriptorStd (K : Type) where
  | wpkh (d : Wpkh K)
  | trKey (d : TrKey K)

/-- `Derive for DescriptorStd` — `keychains` (descriptors.rs lines 181-186). -/
def DescriptorStd.keychains {K : Type} [DeriveCompr K] [DeriveXOnly K] :
    DescriptorStd K → Range8
  | .wpkh d => d.keychains
  | .trKey d => d.keychains

/-- `Derive for DescriptorStd` — `derive` (descriptors.rs lines 188-193). -/
def DescriptorStd.derive {K : Type} [DeriveCompr K] [DeriveXOnly K]
    (ds : DescriptorStd K) (keychain : Nat) (index : NormalIndex) : DerivedScript :=
  match ds with
  | .wpkh d => d.derive keychain index
  | .trKey d => d.derive keychain index

/-- `Descriptor for DescriptorStd` — `keys` (descriptors.rs lines 204-210);
the delegate's single item collected into an owned sequence. -/
def DescriptorStd.keys {K : Type} : DescriptorStd K → List K
  | .wpkh d => d.keys
  | .trKey d => d.keys

/-- `Descriptor for DescriptorStd` — `vars` (descriptors.rs line 212). -/
def DescriptorStd.vars {K : Type} (_ds : DescriptorStd K) : List Unit := []

/-- `Descriptor for DescriptorStd` — `xpubs` (descriptors.rs lines 214-220). -/
def DescriptorStd.xpubs {K : Type} [DeriveCompr K] [DeriveXOnly K] :
    DescriptorStd K → List XpubSpec
  | .wpkh d => d.xpubs
  | .trKey d => d.xpubs

/-- `Descriptor for DescriptorStd` — `compr_keyset` (descriptors.rs 222-227). -/
def DescriptorStd.compr_keyset {K : Type} [DeriveCompr K] [DeriveXOnly K]
    (ds : DescriptorStd K) (terminal : Terminal) : IndexMap CompressedPk KeyOrigin :=
  match ds with
  | .wpkh d => d.compr_keyset terminal
  | .trKey d => d.compr_keyset terminal

/-- `Descriptor for DescriptorStd` — `xonly_keyset` (descriptors.rs 229-234). -/
def DescriptorStd.xonly_keyset {K : Type} [DeriveCompr K] [DeriveXOnly K]
    (ds : DescriptorStd K) (terminal : Terminal) : IndexMap TaprootPk TapDerivation :=
  match ds with
  | .wpkh d => d.xonly_keyset terminal
  | .trKey d => d.xonly_keyset terminal


/-! ## Helper lemmas: decimal printing and parsing -/

/-- The fuel-based printer agrees with the value-recursive one once the fuel
covers the value. -/
theorem toDecAux_eq : ∀ (fuel n : Nat) (acc : List Char), n ≤ fuel →
    toDecAux (fuel + 1) n acc = toDecSpec n ++ acc := by
  intro fuel
  induction fuel with
  | zero =>
    intro n acc hn
    interval_cases n
    rw [toDecSpec.eq_def]
    simp [toDecAux]
  | succ fuel ih =>
    intro n acc hn
    rw [toDecSpec.eq_def]
    by_cases h10 : n < 10
    · rw [dif_pos h10]
      simp [toDecAux, h10]
    · rw [dif_neg h10]
      have hdiv : n / 10 ≤ fuel := by omega
      show (if n < 10 then digitChar (n % 10) :: acc
            else toDecAux (fuel + 1) (n / 10) (digitChar (n % 10) :: acc))
          = toDecSpec (n / 10) ++ [digitChar (n % 10)] ++ acc
      rw [if_neg h10, ih (n / 10) (digitChar (n % 10) :: acc) hdiv]
      simp

theorem toDec_eq (n : Nat) : toDec n = toDecSpec n := by
  have := toDecAux_eq n n [] (Nat.le_refl n)
  simpa [toDec] using this

theorem digitVal_digitChar (d : Nat) (hd : d < 10) :
    digitVal (digitChar d) = some d := by
  interval_cases d <;> decide

theorem toLower_digitChar (d : Nat) (hd : d < 10) :
    Char.toLower (digitChar d) = digitChar d := by
  interval_cases d <;> decide

theorem digitChar_ne_plus (d : Nat) (hd : d < 10) : digitChar d ≠ '+' := by
  interval_cases d <;> decide

theorem digitChar_beq_rparen (d : Nat) (hd : d < 10) :
    (digitChar d == ')') = false := by
  interval_cases d <;> decide

theorem toDecSpec_concat (n : Nat) :
    ∃ front, toDecSpec n = front ++ [digitChar (n % 10)] := by
  rw [toDecSpec.eq_def]
  by_cases h10 : n < 10
  · exact ⟨[], by rw [dif_pos h10]; rfl⟩
  · exact ⟨toDecSpec (n / 10), by rw [dif_neg h10]⟩

theorem toDecSpec_head (n : Nat) :
    ∃ d cs, d < 10 ∧ toDecSpec n = digitChar d :: cs := by
  induction n using Nat.strong_induction_on with
  | _ n ih =>
    rw [toDecSpec.eq_def]
    by_cases h10 : n < 10
    · exact ⟨n % 10, [], Nat.mod_lt n (by omega), by rw [dif_pos h10]⟩
    · obtain ⟨d, cs, hd, hcons⟩ := ih (n / 10) (by omega)
      exact ⟨d, cs ++ [digitChar (n % 10)], hd, by rw [dif_neg h10, hcons]; rfl⟩

theorem map_toLower_toDecSpec (n : Nat) :
    (toDecSpec n).map Char.toLower = toDecSpec n := by
  induction n using Nat.strong_induction_on with
  | _ n ih =>
    rw [toDecSpec.eq_def]
    by_cases h10 : n < 10
    · rw [dif_pos h10]
      simp [toLower_digitChar (n % 10) (Nat.mod_lt n (by omega))]
    · rw [dif_neg h10]
      simp [ih (n / 10) (by omega), toLower_digitChar (n % 10) (Nat.mod_lt n (by omega))]

theorem trim_toDecSpec (n : Nat) :
    trimEndMatchesRParen (toDecSpec n ++ [')']) = toDecSpec n := by
  obtain ⟨front, hfront⟩ := toDecSpec_concat n
  rw [hfront]
  unfold trimEndMatchesRParen
  simp only [List.reverse_append, List.reverse_cons, List.reverse_nil,
    List.nil_append, List.cons_append, List.append_assoc]
  rw [List.dropWhile_cons]
  simp only [beq_self_eq_true, if_true]
  rw [List.dropWhile_cons]
  rw [digitChar_beq_rparen (n % 10) (Nat.mod_lt n (by omega))]
  simp

theorem parseU32Digits_append (l1 l2 : List Char) (acc : Nat) :
    parseU32Digits (l1 ++ l2) acc =
      match parseU32Digits l1 acc with
      | some acc2 => parseU32Digits l2 acc2
      | none => none := by
  induction l1 generalizing acc with
  | nil => rfl
  | cons c cs ih =>
    simp only [List.cons_append, parseU32Digits]
    cases digitVal c with
    | none => rfl
    | some d =>
      by_cases hle : acc * 10 + d ≤ 4294967295
      · simp only [if_pos hle]
        exact ih (acc * 10 + d)
      · simp only [if_neg hle]

theorem parseU32Digits_toDecSpec :
    ∀ (n acc : Nat), acc * 10 ^ (toDecSpec n).length + n ≤ 4294967295 →
      parseU32Digits (toDecSpec n) acc = some (acc * 10 ^ (toDecSpec n).length + n) := by
  intro n
  induction n using Nat.strong_induction_on with
  | _ n ih =>
    intro acc hle
    rw [toDecSpec.eq_def] at hle ⊢
    by_cases h10 : n < 10
    · rw [dif_pos h10] at hle ⊢
      have hmod : n % 10 = n := Nat.mod_eq_of_lt h10
      rw [hmod] at hle ⊢
      simp only [List.length_cons, List.length_nil, Nat.zero_add, pow_one] at hle ⊢
      simp only [parseU32Digits, digitVal_digitChar n h10]
      rw [if_pos hle]
    · rw [dif_neg h10] at hle ⊢
      rw [parseU32Digits_append]
      have hL : (toDecSpec (n / 10) ++ [digitChar (n % 10)]).length
          = (toDecSpec (n / 10)).length + 1 := by simp
      rw [hL] at hle ⊢
      have hpow : ∀ a : Nat, a * 10 ^ ((toDecSpec (n / 10)).length + 1)
          = a * 10 ^ (toDecSpec (n / 10)).length * 10 := by
        intro a
        rw [pow_succ, ← Nat.mul_assoc]
      rw [hpow] at hle ⊢
      have hdm : n / 10 * 10 + n % 10 = n := by omega
      have hsub : acc * 10 ^ (toDecSpec (n / 10)).length + n / 10 ≤ 4294967295 := by
        omega
      rw [ih (n / 10) (by omega) acc hsub]
      simp only [parseU32Digits, digitVal_digitChar (n % 10) (Nat.mod_lt n (by omega))]
      rw [if_pos (by omega)]
      have : (acc * 10 ^ (toDecSpec (n / 10)).length + n / 10) * 10 + n % 10
          = acc * 10 ^ (toDecSpec (n / 10)).length * 10 + n := by
        omega
      rw [this]

theorem parseU32_toDecSpec (n : Nat) (hn : n ≤ 4294967295) :
    parseU32 (toDecSpec n) = some n := by
  obtain ⟨d, cs, hd, hcons⟩ := toDecSpec_head n
  rw [hcons]
  simp only [parseU32, if_neg (digitChar_ne_plus d hd)]
  rw [← hcons]
  have := parseU32Digits_toDecSpec n 0 (by simpa using hn)
  simpa using this

theorem isPrefixOf_append {α : Type} [BEq α] [LawfulBEq α] (l1 l2 : List α) :
    l1.isPrefixOf (l1 ++ l2) = true := by
  induction l1 with
  | nil => simp [List.isPrefixOf]
  | cons a as ih => simp [List.isPrefixOf, ih]

theorem try_from_timestamp_ok (t : Nat) (h1 : LOCKTIME_THRESHOLD ≤ t) :
    LockTimestamp.try_from t = Except.ok ⟨t⟩ := by
  have hcond : ¬ ((!(LockTime.from_consensus t).is_time_based) = true) := by
    simp only [LockTime.is_time_based, LockTime.is_height_based, LockTime.from_consensus,
      Bool.not_not, decide_eq_true_eq]
    omega
  unfold LockTimestamp.try_from LockTimestamp.try_from_lock_time
  rw [if_neg hcond]
  rfl

theorem try_from_height_ok (v : Nat) (h1 : v < LOCKTIME_THRESHOLD) :
    LockHeight.try_from v = Except.ok ⟨v⟩ := by
  have hcond : ¬ ((!(LockTime.from_consensus v).is_height_based) = true) := by
    simp only [LockTime.is_height_based, LockTime.from_consensus, Bool.not_eq_true',
      decide_eq_false_iff_not, not_not]
    exact h1
  unfold LockHeight.try_from LockHeight.try_from_lock_time
  rw [if_neg hcond]
  rfl

theorem lockTimestamp_format_parse (t : Nat) (h1 : LOCKTIME_THRESHOLD ≤ t)
    (h2 : t ≤ 4294967295) :
    lockTimestampFromStr (lockTimestampDisplay ⟨t⟩) = Except.ok ⟨t⟩ := by
  have hmap : (lockTimestampDisplay ⟨t⟩).map Char.toLower
      = "time(".toList ++ (toDecSpec t ++ [')']) := by
    unfold lockTimestampDisplay
    rw [toDec_eq, List.map_append, List.map_append, map_toLower_toDecSpec,
      show ("time(".toList.map Char.toLower) = "time(".toList from rfl,
      show (([')'] : List Char).map Char.toLower) = ([')'] : List Char) from rfl,
      List.append_assoc]
  unfold lockTimestampFromStr
  rw [hmap]
  have hh : List.head? ("time(".toList ++ (toDecSpec t ++ [')'])) = some 't' := rfl
  have hne0 : ¬ ("time(".toList ++ (toDecSpec t ++ [')']) = "0".toList
      ∨ "time(".toList ++ (toDecSpec t ++ [')']) = "none".toList) := by
    rintro (h | h) <;>
      · have hc := congrArg List.head? h
        rw [hh] at hc
        exact absurd hc (by decide)
  have hpre : "time(".toList.isPrefixOf ("time(".toList ++ (toDecSpec t ++ [')'])) = true :=
    isPrefixOf_append "time(".toList (toDecSpec t ++ [')'])
  have hend : endsWithRParen ("time(".toList ++ (toDecSpec t ++ [')'])) = true := by
    unfold endsWithRParen
    rw [← List.append_assoc, List.reverse_append]
    rfl
  have hguard : ("time(".toList.isPrefixOf ("time(".toList ++ (toDecSpec t ++ [')']))
      && endsWithRParen ("time(".toList ++ (toDecSpec t ++ [')']))) = true := by
    rw [hpre, hend]
    decide
  have hdrop : ("time(".toList ++ (toDecSpec t ++ [')'])).drop 5 = toDecSpec t ++ [')'] := by
    rw [show (5 : Nat) = ("time(".toList).length from rfl, List.drop_left]
  unfold lockTimestampFromStrLower
  rw [if_neg hne0, if_pos hguard, hdrop, trim_toDecSpec, parseU32_toDecSpec t h2]
  simp only [try_from_timestamp_ok t h1]

theorem lockHeight_format_parse (v : Nat) (h1 : v < LOCKTIME_THRESHOLD) :
    lockHeightFromStr (lockHeightDisplay ⟨v⟩) = Except.ok ⟨v⟩ := by
  have hmap : (lockHeightDisplay ⟨v⟩).map Char.toLower
      = "height(".toList ++ (toDecSpec v ++ [')']) := by
    unfold lockHeightDisplay
    rw [toDec_eq, List.map_append, List.map_append, map_toLower_toDecSpec,
      show ("height(".toList.map Char.toLower) = "height(".toList from rfl,
      show (([')'] : List Char).map Char.toLower) = ([')'] : List Char) from rfl,
      List.append_assoc]
  unfold lockHeightFromStr
  rw [hmap]
  have hh : List.head? ("height(".toList ++ (toDecSpec v ++ [')'])) = some 'h' := rfl
  have hne0 : ¬ ("height(".toList ++ (toDecSpec v ++ [')']) = "0".toList
      ∨ "height(".toList ++ (toDecSpec v ++ [')']) = "none".toList) := by
    rintro (h | h) <;>
      · have hc := congrArg List.head? h
        rw [hh] at hc
        exact absurd hc (by decide)
  have hpre : "height(".toList.isPrefixOf ("height(".toList ++ (toDecSpec v ++ [')'])) = true :=
    isPrefixOf_append "height(".toList (toDecSpec v ++ [')'])
  have hend : endsWithRParen ("height(".toList ++ (toDecSpec v ++ [')'])) = true := by
    unfold endsWithRParen
    rw [← List.append_assoc, List.reverse_append]
    rfl
  have hguard : ("height(".toList.isPrefixOf ("height(".toList ++ (toDecSpec v ++ [')']))
      && endsWithRParen ("height(".toList ++ (toDecSpec v ++ [')']))) = true := by
    rw [hpre, hend]
    decide
  have hdrop : ("height(".toList ++ (toDecSpec v ++ [')'])).drop 7 = toDecSpec v ++ [')'] := by
    rw [show (7 : Nat) = ("height(".toList).length from rfl, List.drop_left]
  unfold lockHeightFromStrLower
  rw [if_neg hne0, if_pos hguard, hdrop, trim_toDecSpec,
    parseU32_toDecSpec v (by unfold LOCKTIME_THRESHOLD at h1; omega)]
  simp only [try_from_height_ok v h1]

/-! ## Claim theorems -/

/-- C1 (counterexample): contrary to the claim, constructing the timestamp
flavor from the raw integer 0 does NOT succeed: both `TryFrom<LockTime>` and
`TryFrom<u32>` for `LockTimestamp` reject 0 with `InvalidTimelock` (0 is
height-based), and even `from_unix_timestamp(0)` returns `None`. -/
theorem c1_zero_timestamp_rejected :
    LockTimestamp.try_from_lock_time (LockTime.from_consensus 0)
      = Except.error InvalidTimelock.mk
    ∧ LockTimestamp.try_from 0 = Except.error InvalidTimelock.mk
    ∧ LockTimestamp.from_unix_timestamp 0 = none :=
  ⟨rfl, rfl, rfl⟩

/-- C1 (amended): for the height flavor, constructing from 0 succeeds and
yields the `anytime` value; for every u32 `v`, the timestamp flavor raises
`InvalidTimelock` exactly when `v < 500000000` (including `v = 0`), and the
height flavor raises it exactly when `500000000 ≤ v`. -/
theorem c1_zero_and_flavor_ranges (v : Nat) (hv : v < 4294967296) :
    LockHeight.try_from_lock_time (LockTime.from_consensus 0)
      = Except.ok LockHeight.anytime
    ∧ (LockTimestamp.try_from_lock_time (LockTime.from_consensus v)
        = Except.error InvalidTimelock.mk ↔ v < 500000000)
    ∧ (LockTimestamp.try_from v = Except.error InvalidTimelock.mk ↔ v < 500000000)
    ∧ (LockHeight.try_from_lock_time (LockTime.from_consensus v)
        = Except.error InvalidTimelock.mk ↔ 500000000 ≤ v)
    ∧ (LockHeight.try_from v = Except.error InvalidTimelock.mk ↔ 500000000 ≤ v) := by
  have hts : LockTimestamp.try_from_lock_time (LockTime.from_consensus v)
      = Except.error InvalidTimelock.mk ↔ v < 500000000 := by
    unfold LockTimestamp.try_from_lock_time LockTime.is_time_based LockTime.is_height_based
      LockTime.from_consensus LockTime.into_consensus LOCKTIME_THRESHOLD
    by_cases h : v < 500000000
    · simp [h]
    · simp [h]
  have hhg : LockHeight.try_from_lock_time (LockTime.from_consensus v)
      = Except.error InvalidTimelock.mk ↔ 500000000 ≤ v := by
    unfold LockHeight.try_from_lock_time LockTime.is_height_based
      LockTime.from_consensus LockTime.into_consensus LOCKTIME_THRESHOLD
    by_cases h : v < 500000000
    · simp [h]
    · simp [h]
      omega
  exact ⟨rfl, hts, hts, hhg, hhg⟩

theorem c1_zero_and_flavor_ranges_witness :
    600000000 < 4294967296
    ∧ (LockHeight.try_from_lock_time (LockTime.from_consensus 0)
        = Except.ok LockHeight.anytime
      ∧ (LockTimestamp.try_from_lock_time (LockTime.from_consensus 600000000)
          = Except.error InvalidTimelock.mk ↔ 600000000 < 500000000)
      ∧ (LockTimestamp.try_from 600000000 = Except.error InvalidTimelock.mk
          ↔ 600000000 < 500000000)
      ∧ (LockHeight.try_from_lock_time (LockTime.from_consensus 600000000)
          = Except.error InvalidTimelock.mk ↔ 500000000 ≤ 600000000)
      ∧ (LockHeight.try_from 600000000 = Except.error InvalidTimelock.mk
          ↔ 500000000 ≤ 600000000)) :=
  ⟨by decide, c1_zero_and_flavor_ranges 600000000 (by decide)⟩

/-- C2 (counterexample): contrary to the claim, the `anytime` values do not
format to `"0"`/`"none"`: they display as `"time(0)"` and `"height(0)"`, and
format-then-parse of `LockTimestamp::anytime` fails with
`InvalidTimestamp(0)`. -/
theorem c2_anytime_format_counterexample :
    lockTimestampDisplay LockTimestamp.anytime = "time(0)".toList
    ∧ lockHeightDisplay LockHeight.anytime = "height(0)".toList
    ∧ "time(0)".toList ≠ "0".toList
    ∧ "time(0)".toList ≠ "none".toList
    ∧ "height(0)".toList ≠ "0".toList
    ∧ "height(0)".toList ≠ "none".toList
    ∧ lockTimestampFromStr (lockTimestampDisplay LockTimestamp.anytime)
        = Except.error (ParseError.invalidTimestamp 0) :=
  ⟨rfl, rfl, by decide, by decide, by decide, by decide, rfl⟩

/-- C2 (amended): both `anytime` values parse from the textual forms `"0"` and
`"none"`; formatting them yields `"time(0)"`/`"height(0)"` (not `"0"`/`"none"`),
and format-then-parse round-trips for `LockHeight::anytime` but fails for
`LockTimestamp::anytime` with `InvalidTimestamp(0)`. -/
theorem c2_anytime_text_forms :
    lockTimestampFromStr "0".toList = Except.ok LockTimestamp.anytime
    ∧ lockTimestampFromStr "none".toList = Except.ok LockTimestamp.anytime
    ∧ lockHeightFromStr "0".toList = Except.ok LockHeight.anytime
    ∧ lockHeightFromStr "none".toList = Except.ok LockHeight.anytime
    ∧ lockTimestampDisplay LockTimestamp.anytime = "time(0)".toList
    ∧ lockHeightDisplay LockHeight.anytime = "height(0)".toList
    ∧ lockHeightFromStr (lockHeightDisplay LockHeight.anytime)
        = Except.ok LockHeight.anytime
    ∧ lockTimestampFromStr (lockTimestampDisplay LockTimestamp.anytime)
        = Except.error (ParseError.invalidTimestamp 0) :=
  ⟨rfl, rfl, rfl, rfl, rfl, rfl, rfl, rfl⟩

/-- C3: for every keychain and non-hardened index, `Wpkh::derive` returns
`DerivedScript::Bare` wrapping the P2WPKH script of the hash of the compressed
key derived by the wrapped key, and `TrKey::derive` returns
`DerivedScript::TaprootKeyOnly` wrapping the derived x-only key; each template
produces exactly its one fixed variant. -/
theorem c3_template_fixed_variants {K : Type} [DeriveCompr K] [DeriveXOnly K]
    (w : Wpkh K) (tk : TrKey K) (keychain : Nat) (index : NormalIndex) :
    w.derive keychain index
      = DerivedScript.bare (ScriptPubkey.p2wpkh
          (WPubkeyHash.mk (DeriveCompr.derive w.key keychain index)))
    ∧ tk.derive keychain index
      = DerivedScript.taprootKeyOnly (DeriveXOnly.derive tk.internal_key keychain index)
    ∧ (∃ s, w.derive keychain index = DerivedScript.bare s)
    ∧ (∃ k, tk.derive keychain index = DerivedScript.taprootKeyOnly k) :=
  ⟨rfl, rfl, ⟨_, rfl⟩, ⟨_, rfl⟩⟩

/-- C4: every operation on a `DescriptorStd` wrapping a `Wpkh` or `TrKey`
equals the same operation applied directly to the unwrapped value. -/
theorem c4_descriptor_std_dispatch {K : Type} [DeriveCompr K] [DeriveXOnly K]
    (w : Wpkh K) (tk : TrKey K) (keychain : Nat) (index : NormalIndex) (t : Terminal) :
    ((DescriptorStd.wpkh w).derive keychain index = w.derive keychain index
      ∧ (DescriptorStd.wpkh w).keychains = w.keychains
      ∧ (DescriptorStd.wpkh w).keys = w.keys
      ∧ (DescriptorStd.wpkh w).xpubs = w.xpubs
      ∧ (DescriptorStd.wpkh w).vars = w.vars
      ∧ (DescriptorStd.wpkh w).compr_keyset t = w.compr_keyset t
      ∧ (DescriptorStd.wpkh w).xonly_keyset t = w.xonly_keyset t)
    ∧ ((DescriptorStd.trKey tk).derive keychain index = tk.derive keychain index
      ∧ (DescriptorStd.trKey tk).keychains = tk.keychains
      ∧ (DescriptorStd.trKey tk).keys = tk.keys
      ∧ (DescriptorStd.trKey tk).xpubs = tk.xpubs
      ∧ (DescriptorStd.trKey tk).vars = tk.vars
      ∧ (DescriptorStd.trKey tk).compr_keyset t = tk.compr_keyset t
      ∧ (DescriptorStd.trKey tk).xonly_keyset t = tk.xonly_keyset t) :=
  ⟨⟨rfl, rfl, rfl, rfl, rfl, rfl, rfl⟩, ⟨rfl, rfl, rfl, rfl, rfl, rfl, rfl⟩⟩

/-- C5: a `Wpkh` descriptor's x-only key set and a `TrKey` descriptor's
compressed key set are empty at every terminal. -/
theorem c5_cross_keysets_empty {K : Type} (w : Wpkh K) (tk : TrKey K) (t : Terminal) :
    w.xonly_keyset t = IndexMap.empty ∧ tk.compr_keyset t = IndexMap.empty :=
  ⟨rfl, rfl⟩

/-- C6: at every terminal, `Wpkh::compr_keyset` is the one-entry map from the
derived compressed key to the `KeyOrigin` built from the wrapped key's xpub
origin and the terminal, and `TrKey::xonly_keyset` is the one-entry map from
the derived x-only key (as Taproot key) to a `TapDerivation` for that origin
and terminal marked as the internal key. -/
theorem c6_singleton_keysets {K : Type} [DeriveCompr K] [DeriveXOnly K]
    (w : Wpkh K) (tk : TrKey K) (t : Terminal) :
    w.compr_keyset t
      = [(DeriveCompr.derive w.key t.keychain t.index,
          KeyOrigin.make (DeriveCompr.xpub_spec w.key).origin t)]
    ∧ tk.xonly_keyset t
      = [(XOnlyPk.intoTaprootPk (DeriveXOnly.derive tk.internal_key t.keychain t.index),
          TapDerivation.withInternalPk (DeriveXOnly.xpub_spec tk.internal_key).origin t)]
    ∧ (TapDerivation.withInternalPk (DeriveXOnly.xpub_spec tk.internal_key).origin t).role
        = TapRole.internalKey :=
  ⟨rfl, rfl, rfl⟩

/-- C7: for every u32 `t ≥ 500000000`, `from_unix_timestamp(t)` succeeds and
formatting then parsing the result yields the original value; for every u32
`h < 500000000`, `from_height(h)` succeeds and format-then-parse yields the
original value. -/
theorem c7_roundtrip (t h : Nat) (ht1 : 500000000 ≤ t) (ht2 : t < 4294967296)
    (hh : h < 500000000) :
    (∃ lt : LockTimestamp, LockTimestamp.from_unix_timestamp t = some lt
      ∧ lockTimestampFromStr (lockTimestampDisplay lt) = Except.ok lt)
    ∧ (∃ lh : LockHeight, LockHeight.from_height h = some lh
      ∧ lockHeightFromStr (lockHeightDisplay lh) = Except.ok lh) := by
  constructor
  · refine ⟨⟨t⟩, ?_, lockTimestamp_format_parse t
      (by unfold LOCKTIME_THRESHOLD; omega) (by omega)⟩
    unfold LockTimestamp.from_unix_timestamp
    rw [if_neg (by unfold LOCKTIME_THRESHOLD; omega)]
  · refine ⟨⟨h⟩, ?_, lockHeight_format_parse h (by unfold LOCKTIME_THRESHOLD; omega)⟩
    unfold LockHeight.from_height
    rw [if_pos (by unfold LOCKTIME_THRESHOLD; omega)]

theorem c7_roundtrip_witness :
    500000000 ≤ 600000000 ∧ 600000000 < 4294967296 ∧ 700000 < 500000000
    ∧ ((∃ lt : LockTimestamp, LockTimestamp.from_unix_timestamp 600000000 = some lt
        ∧ lockTimestampFromStr (lockTimestampDisplay lt) = Except.ok lt)
      ∧ (∃ lh : LockHeight, LockHeight.from_height 700000 = some lh
        ∧ lockHeightFromStr (lockHeightDisplay lh) = Except.ok lh)) :=
  ⟨by decide, by decide, by decide,
    c7_roundtrip 600000000 700000 (by decide) (by decide) (by decide)⟩

/-- C8: at the threshold boundary, `from_unix_timestamp` rejects 499999999 and
accepts 500000000, while `from_height` rejects 500000000 and accepts
499999999. -/
theorem c8_threshold_boundary :
    LockTimestamp.from_unix_timestamp 499999999 = none
    ∧ LockTimestamp.from_unix_timestamp 500000000 = some ⟨500000000⟩
    ∧ LockHeight.from_height 500000000 = none
    ∧ LockHeight.from_height 499999999 = some ⟨499999999⟩ :=
  ⟨rfl, rfl, rfl, rfl⟩

/-- C9: parsing `"time(600000000)"` succeeds with stored value 600000000;
parsing `"height(700000)"` succeeds with stored value 700000; parsing
`"time(100)"` fails with the invalid-timestamp error; parsing `"garbage"`
fails with the invalid-descriptor error (for both flavors). -/
theorem c9_parse_cases :
    lockTimestampFromStr "time(600000000)".toList = Except.ok ⟨600000000⟩
    ∧ lockHeightFromStr "height(700000)".toList = Except.ok ⟨700000⟩
    ∧ lockTimestampFromStr "time(100)".toList
        = Except.error (ParseError.invalidTimestamp 100)
    ∧ lockTimestampFromStr "garbage".toList
        = Except.error (ParseError.invalidDescriptor "garbage".toList)
    ∧ lockHeightFromStr "garbage".toList
        = Except.error (ParseError.invalidDescriptor "garbage".toList) :=
  ⟨rfl, rfl, rfl, rfl, rfl⟩

/-- C10: because the parser strips all trailing `')'` characters before
parsing the number, inputs with extra closing parentheses such as
`"time(600000000))"` and `"height(700000))"` are accepted and parse to the
same values as the well-formed texts. -/
theorem c10_trailing_parens_accepted :
    lockTimestampFromStr "time(600000000))".toList = Except.ok ⟨600000000⟩
    ∧ lockTimestampFromStr "time(600000000))".toList
        = lockTimestampFromStr "time(600000000)".toList
    ∧ lockHeightFromStr "height(700000))".toList = Except.ok ⟨700000⟩
    ∧ lockHeightFromStr "height(700000))".toList
        = lockHeightFromStr "height(700000)".toList :=
  ⟨rfl, rfl, rfl, rfl⟩
